import Mathlib

/-!
# Verification of `predict_next_mersenne.py`

Shallow embedding of the script `predict_next_mersenne.py`, which

1. loads a list of Mersenne prime exponents from a text file
   (`int(line.strip())` per line),
2. computes consecutive differences (`np.diff`),
3. builds a `pandas.DataFrame` with aligned columns
   `Index` (1..N), `Exponent`, `Difference` (`[None] + differences`),
4. draws two plots (pure side effects, no data flows back),
5. fits `sklearn.linear_model.LinearRegression` on `(Index, Exponent)`,
6. prints `int(model.predict(last_index + 1))`.

Real arithmetic is idealised as exact rational arithmetic (`ℚ`): the
script's float64 computations are the floating-point approximation of
these exact values, and every claim about float results is settled at
the exact values.  Machine integers do not overflow here (Python ints
are unbounded), so `ℤ` is the exact model of the loaded values.
-/

/-- Python `line.strip()`: the characters of the line with leading and
trailing whitespace removed. -/
def pyStrip (s : String) : List Char :=
  ((s.data.dropWhile Char.isWhitespace).reverse.dropWhile Char.isWhitespace).reverse

/-- Decimal value of a nonempty all-digit character list; `none` when the
list is empty or contains a non-digit. -/
def digitsVal? (cs : List Char) : Option ℕ :=
  if cs = [] then none
  else if cs.all Char.isDigit then
    some (cs.foldl (fun n c => 10 * n + (c.toNat - 48)) 0)
  else none

/-- Python `int(text)` on already-stripped text: an optional sign followed
by at least one decimal digit; `none` models the `ValueError` raised on
anything else. -/
def pyInt? (cs : List Char) : Option ℤ :=
  match cs with
  | '-' :: rest => (digitsVal? rest).map (fun n => -(n : ℤ))
  | '+' :: rest => (digitsVal? rest).map (fun n => (n : ℤ))
  | _ => (digitsVal? cs).map (fun n => (n : ℤ))

/-- One step of the loader's comprehension: `int(line.strip())`. -/
def parseLine? (line : String) : Option ℤ :=
  pyInt? (pyStrip line)

/-- The loader `[int(line.strip()) for line in file.readlines()]`: a
Python list comprehension evaluates left to right and the first
`ValueError` aborts the whole comprehension, so no partial list is ever
produced. -/
def parseLines : List String → Option (List ℤ)
  | [] => some []
  | line :: rest =>
    match parseLine? line with
    | none => none
    | some v =>
      match parseLines rest with
      | none => none
      | some vs => some (v :: vs)

/-- `np.diff(exponents)`: element `i` is `exponents[i+1] - exponents[i]`,
so the result has one element fewer than the input. -/
def npDiff (l : List ℤ) : List ℤ :=
  List.zipWith (fun a b => b - a) l l.tail

/-- The `Difference` column `[None] + list(differences)`: a `None`
placeholder followed by the differences. -/
def diffColumn (l : List ℤ) : List (Option ℤ) :=
  none :: (npDiff l).map Option.some

/-- The `Index` column `range(1, len(exponents) + 1)`, i.e. `1..n`. -/
def indexCol (n : ℕ) : List ℕ :=
  List.range' 1 n

/-- `sklearn.linear_model.LinearRegression().fit(X, y)` with the default
`fit_intercept=True` for a single regressor: both columns are centred and
the least-squares problem is solved by `lstsq`, giving slope
`Sxy / Sxx`; when the centred regressor is identically zero (`Sxx = 0`,
e.g. a single sample) `lstsq` returns the minimum-norm solution, slope
`0`.  The intercept is `mean y - slope * mean x`. -/
def olsFit (xs ys : List ℚ) : ℚ × ℚ :=
  let n : ℚ := xs.length
  let xbar : ℚ := xs.sum / n
  let ybar : ℚ := ys.sum / n
  let sxx : ℚ := (xs.map (fun x => (x - xbar) ^ 2)).sum
  let sxy : ℚ := (List.zipWith (fun x y => (x - xbar) * (y - ybar)) xs ys).sum
  let slope : ℚ := if sxx = 0 then 0 else sxy / sxx
  (slope, ybar - slope * xbar)

/-- Python `int(x)` on a real value: truncation toward zero. -/
def pyTrunc (q : ℚ) : ℤ :=
  if 0 ≤ q then ⌊q⌋ else ⌈q⌉

/-- The value `model.predict([[df['Index'].iloc[-1] + 1]])[0]`: the fitted
line evaluated at index `N + 1`.  `df['Index'].dropna()` is the full
index column `1..N` (it contains no missing values) and
`df['Exponent'].dropna()` is the full exponent list, so the fit runs on
exactly the `N` pairs `(i, exponents[i-1])`. -/
def predictedValue (exps : List ℤ) : ℚ :=
  let fit := olsFit ((indexCol exps.length).map (fun n => (n : ℚ)))
    (exps.map (fun z => (z : ℚ)))
  fit.1 * ((exps.length : ℚ) + 1) + fit.2

/-- The single console line the script prints. -/
def outputLine (n : ℤ) : String :=
  "Predicted next Mersenne prime exponent: " ++ toString n

/-- How a run can abort: a line fails integer parsing (`ValueError` from
`int`), or `pd.DataFrame` rejects columns of unequal length
(`ValueError: All arrays must be of the same length`). -/
inductive PipelineError where
  | parseFailure
  | columnLengthMismatch
deriving DecidableEq

/-- The whole script on the lines of the input file: load, diff, build
the aligned frame (pandas requires all three columns to have the same
length), fit, predict at `N + 1`, truncate, print.  The two plotting
calls read the frame but produce no data used afterwards, so they do not
appear in the data flow. -/
def runPipeline (lines : List String) : Except PipelineError String :=
  match parseLines lines with
  | none => .error .parseFailure
  | some exponents =>
    if (indexCol exponents.length).length = exponents.length
        ∧ (diffColumn exponents).length = exponents.length then
      .ok (outputLine (pyTrunc (predictedValue exponents)))
    else
      .error .columnLengthMismatch

/-- Sum of squared residuals of the line `y = a * x + b` on a dataset:
what "ordinary least squares" minimises (spec wording). -/
def sse (xs ys : List ℚ) (a b : ℚ) : ℚ :=
  (List.zipWith (fun x y => (y - (a * x + b)) ^ 2) xs ys).sum

/-- Modelled from the spec: `(slope, intercept) = (p.1, p.2)` solves the
ordinary-least-squares normal equations of the dataset,
`Σ (y - slope*x - intercept) = 0` and `Σ x*(y - slope*x - intercept) = 0`. -/
def solvesNormalEquations (xs ys : List ℚ) (p : ℚ × ℚ) : Prop :=
  (xs.length : ℚ) * p.2 + xs.sum * p.1 = ys.sum ∧
  xs.sum * p.2 + (xs.map (fun x => x ^ 2)).sum * p.1 =
    (List.zipWith (fun x y => x * y) xs ys).sum

/-- The input sequence is sorted ascending (adjacent pairs `≤`). -/
def sortedLe : List ℤ → Bool
  | a :: b :: t => decide (a ≤ b) && sortedLe (b :: t)
  | _ => true

/-- The input sequence is strictly ascending (sorted and duplicate-free):
every adjacent pair is `<`. -/
def strictAscending : List ℤ → Bool
  | a :: b :: t => decide (a < b) && strictAscending (b :: t)
  | _ => true

/- ### Helper lemmas -/

theorem npDiff_length (s : List ℤ) : (npDiff s).length = s.length - 1 := by
  simp only [npDiff, List.length_zipWith, List.length_tail]
  omega

theorem indexCol_length (n : ℕ) : (indexCol n).length = n := by
  simp [indexCol]

theorem diffColumn_length (s : List ℤ) :
    (diffColumn s).length = s.length - 1 + 1 := by
  simp [diffColumn, npDiff_length]

theorem npDiff_getElem? (s : List ℤ) (i : ℕ) (h : i + 1 < s.length) :
    (npDiff s)[i]? = some (s.getD (i + 1) 0 - s.getD i 0) := by
  induction s generalizing i with
  | nil => simp at h
  | cons a t ih =>
    cases t with
    | nil => simp at h
    | cons b u =>
      cases i with
      | zero => simp [npDiff]
      | succ j =>
        have hj : j + 1 < (b :: u).length := by
          simpa using Nat.lt_of_succ_lt_succ h
        have := ih j hj
        simpa [npDiff] using this

theorem parseLines_eq_none (lines : List String)
    (h : ∃ l ∈ lines, parseLine? l = none) : parseLines lines = none := by
  induction lines with
  | nil => simp at h
  | cons line rest ih =>
    rcases h with ⟨l, hl, hnone⟩
    rcases List.mem_cons.mp hl with hl | hl
    · subst hl
      simp [parseLines, hnone]
    · unfold parseLines
      rcases hv : parseLine? line with _ | v
      · rfl
      · rw [ih ⟨l, hl, hnone⟩]

theorem runPipeline_ok (lines : List String) (exps : List ℤ)
    (hp : parseLines lines = some exps) (hne : 1 ≤ exps.length) :
    runPipeline lines = .ok (outputLine (pyTrunc (predictedValue exps))) := by
  have hcond : (indexCol exps.length).length = exps.length
      ∧ (diffColumn exps).length = exps.length :=
    ⟨indexCol_length _, by rw [diffColumn_length]; omega⟩
  unfold runPipeline
  rw [hp]
  show (if (indexCol exps.length).length = exps.length
        ∧ (diffColumn exps).length = exps.length
      then (Except.ok (outputLine (pyTrunc (predictedValue exps)))
        : Except PipelineError String)
      else .error .columnLengthMismatch) = _
  rw [if_pos hcond]

/- ### Claims -/

/-- C10: on an empty input file the loader returns the empty series, the
`Difference` column `[None]` has length 1 while `Index` and `Exponent`
have length 0, and the run aborts in the `pd.DataFrame` construction with
the column-length mismatch, never reaching fitting or printing. -/
theorem c10_empty_file_frame_mismatch :
    parseLines [] = some [] ∧
    (indexCol ([] : List ℤ).length).length = 0 ∧
    (diffColumn ([] : List ℤ)).length = 1 ∧
    runPipeline [] = .error .columnLengthMismatch :=
  ⟨rfl, rfl, rfl, rfl⟩

/-- C8: if the exponent series is sorted ascending, every element of the
difference series `np.diff` is non-negative. -/
theorem c8_differences_nonneg (s : List ℤ) (h : sortedLe s = true) :
    ∀ d ∈ npDiff s, 0 ≤ d := by
  induction s with
  | nil => simp [npDiff]
  | cons a t ih =>
    cases t with
    | nil => simp [npDiff]
    | cons b u =>
      simp only [sortedLe, Bool.and_eq_true, decide_eq_true_eq] at h
      intro d hd
      have hstep : npDiff (a :: b :: u) = (b - a) :: npDiff (b :: u) := by
        simp [npDiff]
      rw [hstep] at hd
      rcases List.mem_cons.mp hd with hd | hd
      · simpa [hd] using sub_nonneg.mpr h.1
      · exact ih h.2 d hd

/-- C8 witness at the series `[2, 3, 5]`. -/
theorem c8_differences_nonneg_witness :
    sortedLe [2, 3, 5] = true ∧ ∀ d ∈ npDiff [2, 3, 5], 0 ≤ d :=
  ⟨by decide, c8_differences_nonneg [2, 3, 5] (by decide)⟩

/-- C2: for an ascending duplicate-free series of length at least 2, the
difference series has exactly `N - 1` elements, element `i` equals
`series[i+1] - series[i]`, the first presented value of the aligned
difference column is the `None` placeholder, and the true differences
occupy the column from position 2 on. -/
theorem c2_diff_series_shape (s : List ℤ) (hlen : 2 ≤ s.length)
    (hasc : strictAscending s = true) :
    (npDiff s).length = s.length - 1 ∧
    (∀ i, i + 1 < s.length →
      (npDiff s)[i]? = some (s.getD (i + 1) 0 - s.getD i 0)) ∧
    (diffColumn s)[0]? = some none ∧
    (∀ i, i + 1 < s.length →
      (diffColumn s)[i + 1]? = some (some (s.getD (i + 1) 0 - s.getD i 0))) := by
  refine ⟨npDiff_length s, fun i hi => npDiff_getElem? s i hi,
    by simp [diffColumn], fun i hi => ?_⟩
  have h1 := npDiff_getElem? s i hi
  simp [diffColumn, List.getElem?_map, h1]

/-- C2 witness at the series `[2, 3, 5]`. -/
theorem c2_diff_series_shape_witness :
    2 ≤ ([2, 3, 5] : List ℤ).length ∧
    strictAscending [2, 3, 5] = true ∧
    ((npDiff [2, 3, 5]).length = ([2, 3, 5] : List ℤ).length - 1 ∧
      (∀ i, i + 1 < ([2, 3, 5] : List ℤ).length →
        (npDiff [2, 3, 5])[i]? =
          some (([2, 3, 5] : List ℤ).getD (i + 1) 0 -
            ([2, 3, 5] : List ℤ).getD i 0)) ∧
      (diffColumn [2, 3, 5])[0]? = some none ∧
      (∀ i, i + 1 < ([2, 3, 5] : List ℤ).length →
        (diffColumn [2, 3, 5])[i + 1]? =
          some (some (([2, 3, 5] : List ℤ).getD (i + 1) 0 -
            ([2, 3, 5] : List ℤ).getD i 0)))) :=
  ⟨by decide, by decide, c2_diff_series_shape [2, 3, 5] (by decide) (by decide)⟩

/-- C5: if any input line is not a valid integer, the load comprehension
aborts with the parse failure, no partial series is used, and the run
never reaches differencing, the frame, fitting, or printing. -/
theorem c5_parse_failure_aborts (lines : List String)
    (h : ∃ l ∈ lines, parseLine? l = none) :
    runPipeline lines = .error .parseFailure := by
  unfold runPipeline
  rw [parseLines_eq_none lines h]

/-- C5 witness at the input lines `["2", "abc"]`. -/
theorem c5_parse_failure_aborts_witness :
    (∃ l ∈ ["2", "abc"], parseLine? l = none) ∧
    runPipeline ["2", "abc"] = .error .parseFailure :=
  ⟨by decide, c5_parse_failure_aborts ["2", "abc"] (by decide)⟩

/-- C6: the pipeline is a pure function of the input file's lines: two
runs on unchanged input produce the same result, in particular the same
printed prediction. -/
theorem c6_deterministic (lines : List String)
    (r₁ r₂ : Except PipelineError String)
    (h₁ : runPipeline lines = r₁) (h₂ : runPipeline lines = r₂) : r₁ = r₂ := by
  rw [← h₁, ← h₂]

/-- C6 witness at the input line `["13"]`. -/
theorem c6_deterministic_witness :
    runPipeline ["13"] = runPipeline ["13"] :=
  c6_deterministic ["13"] (runPipeline ["13"]) (runPipeline ["13"]) rfl rfl

/-- Evaluation of the fit on the Mersenne example dataset: indices `1..8`
against exponents `2, 3, 5, 7, 13, 17, 19, 31`. -/
theorem olsFit_mersenne :
    olsFit ((indexCol 8).map (fun n => (n : ℚ)))
      (([2, 3, 5, 7, 13, 17, 19, 31] : List ℤ).map (fun z => (z : ℚ)))
      = (325/84, -37/7) := by
  norm_num [olsFit, indexCol, List.range', List.zipWith]

/-- Evaluation of the predicted value on the Mersenne example dataset. -/
theorem predictedValue_mersenne :
    predictedValue [2, 3, 5, 7, 13, 17, 19, 31] = 827/28 := by
  have h := olsFit_mersenne
  simp only [predictedValue, List.length_cons, List.length_nil] at *
  rw [h]
  norm_num

/-- C9: an input of at least two valid integer lines that violates the
ascending duplicate-free assumption still loads, differences, fits and
predicts: the run completes with a printed prediction instead of
crashing. -/
theorem c9_violating_input_completes (lines : List String) (exps : List ℤ)
    (hp : parseLines lines = some exps) (hlen : 2 ≤ exps.length)
    (hviol : strictAscending exps = false) :
    ∃ out, runPipeline lines = .ok out :=
  ⟨_, runPipeline_ok lines exps hp (by omega)⟩

/-- C9 witness at the unsorted input lines `["5", "3", "9"]`. -/
theorem c9_violating_input_completes_witness :
    parseLines ["5", "3", "9"] = some [5, 3, 9] ∧
    2 ≤ ([5, 3, 9] : List ℤ).length ∧
    strictAscending [5, 3, 9] = false ∧
    ∃ out, runPipeline ["5", "3", "9"] = .ok out :=
  ⟨by decide, by decide, by decide,
    c9_violating_input_completes ["5", "3", "9"] [5, 3, 9]
      (by decide) (by decide) (by decide)⟩

/-- C1: on the dataset indices `[1, 2, 3, 4]`, exponents `[2, 3, 5, 7]`,
the fitted line evaluated at index 5 agrees with any solution of the
ordinary-least-squares normal equations evaluated there; moreover the
fit itself solves the normal equations and minimises the sum of squared
residuals, i.e. the program's fit is ordinary least squares.  (Equality
is exact in `ℚ`, the idealisation of "within floating-point tolerance".) -/
theorem c1_fit_is_ols (a b : ℚ)
    (h : solvesNormalEquations [1, 2, 3, 4] [2, 3, 5, 7] (a, b)) :
    (olsFit [1, 2, 3, 4] [2, 3, 5, 7]).1 * 5
        + (olsFit [1, 2, 3, 4] [2, 3, 5, 7]).2 = a * 5 + b ∧
    solvesNormalEquations [1, 2, 3, 4] [2, 3, 5, 7]
      (olsFit [1, 2, 3, 4] [2, 3, 5, 7]) ∧
    ∀ a' b' : ℚ,
      sse [1, 2, 3, 4] [2, 3, 5, 7] (olsFit [1, 2, 3, 4] [2, 3, 5, 7]).1
          (olsFit [1, 2, 3, 4] [2, 3, 5, 7]).2
        ≤ sse [1, 2, 3, 4] [2, 3, 5, 7] a' b' := by
  have hfit : olsFit [1, 2, 3, 4] [2, 3, 5, 7] = (17/10, 0) := by
    norm_num [olsFit, List.zipWith]
  have h' : 4 * b + 10 * a = 17 ∧ 10 * b + 30 * a = 51 := by
    have h1 := h.1
    have h2 := h.2
    norm_num [solvesNormalEquations, List.zipWith] at h1 h2
    constructor <;> linarith
  refine ⟨?_, ?_, ?_⟩
  · rw [hfit]
    have := h'.1
    have := h'.2
    norm_num
    linarith
  · rw [hfit]
    norm_num [solvesNormalEquations, List.zipWith]
  · intro a' b'
    rw [hfit]
    simp only [sse, List.zipWith, List.sum_cons, List.sum_nil]
    nlinarith [sq_nonneg (2 * b' + 5 * a' - 17/2), sq_nonneg (a' - 17/10)]

/-- C1 witness: the pair `(17/10, 0)` solves the normal equations of the
dataset, and the theorem instantiated there. -/
theorem c1_fit_is_ols_witness :
    solvesNormalEquations [1, 2, 3, 4] [2, 3, 5, 7] (17/10, 0) ∧
    ((olsFit [1, 2, 3, 4] [2, 3, 5, 7]).1 * 5
        + (olsFit [1, 2, 3, 4] [2, 3, 5, 7]).2 = 17/10 * 5 + 0 ∧
      solvesNormalEquations [1, 2, 3, 4] [2, 3, 5, 7]
        (olsFit [1, 2, 3, 4] [2, 3, 5, 7]) ∧
      ∀ a' b' : ℚ,
        sse [1, 2, 3, 4] [2, 3, 5, 7] (olsFit [1, 2, 3, 4] [2, 3, 5, 7]).1
            (olsFit [1, 2, 3, 4] [2, 3, 5, 7]).2
          ≤ sse [1, 2, 3, 4] [2, 3, 5, 7] a' b') :=
  ⟨by norm_num [solvesNormalEquations, List.zipWith],
    c1_fit_is_ols (17/10) 0 (by norm_num [solvesNormalEquations, List.zipWith])⟩

/-- C3: the displayed prediction is the real-valued prediction truncated
toward zero, not rounded to nearest: whenever the (non-negative)
predicted value has fractional part at least `1/2`, the printed integer
is the floor of the prediction and differs from the nearest integer. -/
theorem c3_truncates_not_rounds (lines : List String) (exps : List ℤ)
    (hp : parseLines lines = some exps) (hne : 1 ≤ exps.length)
    (h0 : 0 ≤ predictedValue exps)
    (hfrac : 1/2 ≤ predictedValue exps - (⌊predictedValue exps⌋ : ℚ)) :
    runPipeline lines = .ok (outputLine ⌊predictedValue exps⌋) ∧
    pyTrunc (predictedValue exps) = ⌊predictedValue exps⌋ ∧
    pyTrunc (predictedValue exps) ≠ round (predictedValue exps) := by
  have ht : pyTrunc (predictedValue exps) = ⌊predictedValue exps⌋ := by
    unfold pyTrunc
    exact if_pos h0
  have hround : round (predictedValue exps) = ⌊predictedValue exps⌋ + 1 := by
    rw [round_eq, Int.floor_eq_iff]
    have hlt := Int.lt_floor_add_one (predictedValue exps)
    constructor
    · push_cast
      linarith
    · push_cast
      linarith
  refine ⟨?_, ht, ?_⟩
  · rw [runPipeline_ok lines exps hp hne, ht]
  · rw [ht, hround]
    omega

/-- C3 witness at the Mersenne example input, whose prediction `827/28`
has fractional part `15/28 ≥ 1/2`. -/
theorem c3_truncates_not_rounds_witness :
    parseLines ["2", "3", "5", "7", "13", "17", "19", "31"]
        = some [2, 3, 5, 7, 13, 17, 19, 31] ∧
    1 ≤ ([2, 3, 5, 7, 13, 17, 19, 31] : List ℤ).length ∧
    0 ≤ predictedValue [2, 3, 5, 7, 13, 17, 19, 31] ∧
    1/2 ≤ predictedValue [2, 3, 5, 7, 13, 17, 19, 31]
        - (⌊predictedValue [2, 3, 5, 7, 13, 17, 19, 31]⌋ : ℚ) ∧
    (runPipeline ["2", "3", "5", "7", "13", "17", "19", "31"]
        = .ok (outputLine ⌊predictedValue [2, 3, 5, 7, 13, 17, 19, 31]⌋) ∧
      pyTrunc (predictedValue [2, 3, 5, 7, 13, 17, 19, 31])
        = ⌊predictedValue [2, 3, 5, 7, 13, 17, 19, 31]⌋ ∧
      pyTrunc (predictedValue [2, 3, 5, 7, 13, 17, 19, 31])
        ≠ round (predictedValue [2, 3, 5, 7, 13, 17, 19, 31])) :=
  ⟨by decide, by decide,
    by rw [predictedValue_mersenne]; norm_num,
    by rw [predictedValue_mersenne]; norm_num,
    c3_truncates_not_rounds ["2", "3", "5", "7", "13", "17", "19", "31"]
      [2, 3, 5, 7, 13, 17, 19, 31] (by decide) (by decide)
      (by rw [predictedValue_mersenne]; norm_num)
      (by rw [predictedValue_mersenne]; norm_num)⟩

/-- Truncation is the identity on integer values. -/
theorem pyTrunc_intCast (v : ℤ) : pyTrunc (v : ℚ) = v := by
  unfold pyTrunc
  split
  · exact Int.floor_intCast v
  · exact Int.ceil_intCast v

/-- C4 counterexample: on the one-line input file `"7"` the run does not
abort at the fitter; `LinearRegression` fits the single sample and the
script prints the degenerate prediction `7`. -/
theorem c4_counterexample :
    runPipeline ["7"] = .ok "Predicted next Mersenne prime exponent: 7" := by
  have hp : parseLines ["7"] = some [7] := by decide
  have hfit : olsFit [(1 : ℚ)] [(7 : ℚ)] = (0, 7) := by
    norm_num [olsFit]
  have hpv : predictedValue [7] = 7 := by
    simp only [predictedValue, List.length_cons, List.length_nil]
    norm_num [indexCol, hfit]
  rw [runPipeline_ok ["7"] [7] hp (by decide), hpv]
  have ht : pyTrunc ((7 : ℤ) : ℚ) = 7 := pyTrunc_intCast 7
  norm_num at ht
  rw [ht]
  rfl

/-- C4 amended: for an input file with exactly one valid integer line of
value `v`, the run raises no error: the least-squares fit degenerates to
the minimum-norm solution (slope `0`, intercept `v`), and the pipeline
prints `v` itself as the prediction. -/
theorem c4_single_line_degenerate (l : String) (v : ℤ)
    (h : parseLine? l = some v) :
    olsFit [(1 : ℚ)] [(v : ℚ)] = (0, (v : ℚ)) ∧
    predictedValue [v] = (v : ℚ) ∧
    runPipeline [l] = .ok (outputLine v) := by
  have hfit : olsFit [(1 : ℚ)] [(v : ℚ)] = (0, (v : ℚ)) := by
    norm_num [olsFit]
  have hpv : predictedValue [v] = (v : ℚ) := by
    simp only [predictedValue, List.length_cons, List.length_nil]
    norm_num [indexCol, hfit]
  have hp : parseLines [l] = some [v] := by
    unfold parseLines
    rw [h]
    rfl
  refine ⟨hfit, hpv, ?_⟩
  rw [runPipeline_ok [l] [v] hp (by simp), hpv, pyTrunc_intCast v]

/-- C4 amended witness at the one-line input `"7"`. -/
theorem c4_single_line_degenerate_witness :
    parseLine? "7" = some 7 ∧
    (olsFit [(1 : ℚ)] [((7 : ℤ) : ℚ)] = (0, ((7 : ℤ) : ℚ)) ∧
      predictedValue [7] = ((7 : ℤ) : ℚ) ∧
      runPipeline ["7"] = .ok (outputLine 7)) :=
  ⟨by decide, c4_single_line_degenerate "7" 7 (by decide)⟩

/-- C7: the end-to-end Mersenne example.  On the input file with lines
`2, 3, 5, 7, 13, 17, 19, 31`: the difference series (placeholder
excluded) is `1, 2, 2, 6, 4, 2, 12`; the fitter runs on indices `1..8`
against the eight exponents and returns slope `325/84`, intercept
`-37/7`; the predictor evaluates the fitted line at index 9 and
truncates; and the console output is exactly the line
`Predicted next Mersenne prime exponent: 29`. -/
theorem c7_end_to_end_mersenne :
    npDiff [2, 3, 5, 7, 13, 17, 19, 31] = [1, 2, 2, 6, 4, 2, 12] ∧
    indexCol ([2, 3, 5, 7, 13, 17, 19, 31] : List ℤ).length
      = [1, 2, 3, 4, 5, 6, 7, 8] ∧
    olsFit ((indexCol 8).map (fun n => (n : ℚ)))
        (([2, 3, 5, 7, 13, 17, 19, 31] : List ℤ).map (fun z => (z : ℚ)))
      = (325/84, -37/7) ∧
    predictedValue [2, 3, 5, 7, 13, 17, 19, 31] = 325/84 * 9 + -37/7 ∧
    pyTrunc (predictedValue [2, 3, 5, 7, 13, 17, 19, 31]) = 29 ∧
    runPipeline ["2", "3", "5", "7", "13", "17", "19", "31"]
      = .ok "Predicted next Mersenne prime exponent: 29" := by
  have hp : parseLines ["2", "3", "5", "7", "13", "17", "19", "31"]
      = some [2, 3, 5, 7, 13, 17, 19, 31] := by decide
  have htr : pyTrunc (predictedValue [2, 3, 5, 7, 13, 17, 19, 31]) = 29 := by
    rw [predictedValue_mersenne]
    unfold pyTrunc
    rw [if_pos (by norm_num)]
    norm_num
  refine ⟨by decide, by decide, olsFit_mersenne, ?_, htr, ?_⟩
  · rw [predictedValue_mersenne]
    norm_num
  · rw [runPipeline_ok _ _ hp (by decide), htr]
    rfl
